import Mathlib

/-!
Verification development for `volatile.py`, a hierarchical trend-estimation
script for stock prices.  Each numeric routine of the script is shallowly
embedded as a Lean definition (floats become exact rationals or reals), and
the theorems below settle the spec claims against those definitions.
-/

namespace Volatile

/-! ### Rating (source: `rate`, volatile.py lines 186-218)

The Python function takes an array of scores and an optional thresholds
dictionary (replaced by a default dictionary when `None`), and classifies
each score by a cascade of strict greater-than comparisons. -/

/-- Thresholds record, mirroring the keys of the Python thresholds
dictionary in `rate`. -/
structure Thresholds where
  highlyBelow : ℚ
  below : ℚ
  along : ℚ
  above : ℚ
  highlyAbove : ℚ
deriving DecidableEq

/-- Default thresholds dictionary built inside `rate` when the argument is
`None`: HIGHLY BELOW TREND 3, BELOW TREND 2, ALONG TREND 0, ABOVE TREND -2,
HIGHLY ABOVE TREND -3. -/
def defaultThresholds : Thresholds := ⟨3, 2, 0, -2, -3⟩

/-- Body of the loop in `rate` for a single score: the cascade of strict
greater-than comparisons from volatile.py lines 208-217. -/
def rateOne (th : Thresholds) (s : ℚ) : String :=
  if s > th.highlyBelow then "HIGHLY BELOW TREND"
  else if s > th.below then "BELOW TREND"
  else if s > th.along then "ALONG TREND"
  else if s > th.above then "ABOVE TREND"
  else "HIGHLY ABOVE TREND"

/-- The function `rate` of volatile.py: when `thresholds` is `None` the
default dictionary is used, and every score is classified in order. -/
def rate (scores : List ℚ) (thresholds : Option Thresholds) : List String :=
  (scores.map (rateOne (thresholds.getD defaultThresholds)))

/-- The five labels `rate` can produce. -/
def rateLabels : List String :=
  ["HIGHLY BELOW TREND", "BELOW TREND", "ALONG TREND", "ABOVE TREND",
   "HIGHLY ABOVE TREND"]

/-! ### Log-price and price statistics (source: `softplus`,
`estimate_logprice_statistics`, `estimate_price_statistics`,
volatile.py lines 139-184).  Arrays are embedded as functions on `Fin`,
floats as reals. -/

/-- The function `softplus` of volatile.py line 148:
`np.log(1 + np.exp(x))` applied to a real. -/
noncomputable def softplus (x : ℝ) : ℝ := Real.log (1 + Real.exp x)

/-- Embedding of `np.dot` on two-dimensional arrays, the matrix product
used at volatile.py line 167. -/
noncomputable def np_dot {n q T : ℕ} (phi : Fin n → Fin q → ℝ) (tt : Fin q → Fin T → ℝ) :
    Fin n → Fin T → ℝ :=
  fun i j => ∑ k, phi i k * tt k j

/-- The function `estimate_logprice_statistics` of volatile.py line 167:
it returns `np.dot(phi, tt)` and `softplus(psi)` (the psi array has one
entry per row, its trailing axis of size one is dropped here). -/
noncomputable def estimate_logprice_statistics {n q T : ℕ} (phi : Fin n → Fin q → ℝ)
    (psi : Fin n → ℝ) (tt : Fin q → Fin T → ℝ) :
    (Fin n → Fin T → ℝ) × (Fin n → ℝ) :=
  (np_dot phi tt, fun i => softplus (psi i))

/-- The function `estimate_price_statistics` of volatile.py line 184:
`np.exp(mu + sigma ** 2 / 2)` and
`np.sqrt(np.exp(2 * mu + sigma ** 2) * (np.exp(sigma ** 2) - 1))`,
with `sigma` (one entry per row) broadcast across the time axis. -/
noncomputable def estimate_price_statistics {n T : ℕ} (mu : Fin n → Fin T → ℝ)
    (sigma : Fin n → ℝ) : (Fin n → Fin T → ℝ) × (Fin n → Fin T → ℝ) :=
  (fun i j => Real.exp (mu i j + sigma i ^ 2 / 2),
   fun i j => Real.sqrt (Real.exp (2 * mu i j + sigma i ^ 2) *
     (Real.exp (sigma i ^ 2) - 1)))

/-- Formulated from the spec wording for comparison: the mean log-price is
the matrix product `phi * tt` in the Mathlib sense. -/
noncomputable def mean_logp_spec {n q T : ℕ} (phi : Fin n → Fin q → ℝ)
    (tt : Fin q → Fin T → ℝ) : Fin n → Fin T → ℝ :=
  (Matrix.of phi * Matrix.of tt : Matrix (Fin n) (Fin T) ℝ)

/-- Formulated from the spec wording for comparison:
`std_logp = log(1 + exp(psi))` broadcast across time. -/
noncomputable def std_logp_spec {n : ℕ} (psi : Fin n → ℝ) : Fin n → ℝ :=
  fun i => Real.log (1 + Real.exp (psi i))

/-- Formulated from the spec wording for comparison: the exact log-normal
mean `exp(mean_logp + std_logp ^ 2 / 2)`. -/
noncomputable def mean_price_spec {n T : ℕ} (mu : Fin n → Fin T → ℝ) (sigma : Fin n → ℝ) :
    Fin n → Fin T → ℝ :=
  fun i j => Real.exp (mu i j + sigma i ^ 2 / 2)

/-- Formulated from the spec wording for comparison: the exact log-normal
standard deviation
`sqrt(exp(2 * mean_logp + std_logp ^ 2) * (exp(std_logp ^ 2) - 1))`. -/
noncomputable def std_price_spec {n T : ℕ} (mu : Fin n → Fin T → ℝ) (sigma : Fin n → ℝ) :
    Fin n → Fin T → ℝ :=
  fun i j => Real.sqrt (Real.exp (2 * mu i j + sigma i ^ 2) *
    (Real.exp (sigma i ^ 2) - 1))

/-! ### Score (source: volatile.py line 289)

`scores = (logp_pred[:, horizon] - logp[:, -1]) / std_logp_pred.squeeze()`.
The prediction array `logp_pred` has `horizon + 1` columns (see `tt_pred`
below), so column `horizon` is its last column; `logp[:, -1]` is the last
observed column.  The log-price array is given `t + 1` columns so that the
last column exists. -/

/-- Embedding of the score computation of volatile.py line 289. -/
noncomputable def scores {n t horizon : ℕ} (logp_pred : Fin n → Fin (horizon + 1) → ℝ)
    (logp : Fin n → Fin (t + 1) → ℝ) (std_logp_pred : Fin n → ℝ) :
    Fin n → ℝ :=
  fun i => (logp_pred i (Fin.last horizon) - logp i (Fin.last t)) /
    std_logp_pred i

/-! ### Time bases (source: volatile.py lines 266 and 277)

`info['tt'] = np.linspace(1 / t, 1, t) ** np.arange(order + 1).reshape(-1, 1)`
and
`tt_pred = (1 + np.arange(1 + horizon) / t) ** np.arange(order + 1).reshape(-1, 1)`.
Floats are embedded as exact rationals. -/

/-- Embedding of `np.linspace(start, stop, num)` with the default
`endpoint=True`: `num` points `start + j * (stop - start) / (num - 1)`;
a single point is `start` alone. -/
def np_linspace (start stop : ℚ) (num : ℕ) : Fin num → ℚ :=
  fun j =>
    if num = 1 then start
    else start + (j : ℚ) * ((stop - start) / ((num : ℚ) - 1))

/-- The historical time basis `info['tt']` of volatile.py line 266: row `k`
is the elementwise `k`-th power of `np.linspace(1 / t, 1, t)`. -/
def tt_hist (order t : ℕ) : Fin (order + 1) → Fin t → ℚ :=
  fun k j => np_linspace (1 / (t : ℚ)) 1 t j ^ (k : ℕ)

/-- The forecast time basis `tt_pred` of volatile.py line 277: row `k` is
the elementwise `k`-th power of `1 + np.arange(1 + horizon) / t`, an array
of `horizon + 1` entries whose `h`-th entry is `1 + h / t`. -/
def tt_pred (order t horizon : ℕ) : Fin (order + 1) → Fin (horizon + 1) → ℚ :=
  fun k h => (1 + (h : ℚ) / (t : ℚ)) ^ (k : ℕ)

/-- Formulated from the spec wording for comparison: a forecast basis
evaluated at the future offsets `t + 1 .. t + horizon` only (`horizon`
columns), row `k` holding `((t + h) / t) ^ k` for `h = 1 .. horizon`. -/
def tt_pred_claimed (order t horizon : ℕ) :
    Fin (order + 1) → Fin horizon → ℚ :=
  fun k h => (((t : ℚ) + ((h : ℚ) + 1)) / (t : ℚ)) ^ (k : ℕ)

/-! ### Hierarchy index and model definition (source: `define_model`,
volatile.py lines 16-64)

The `info` dictionary entries that `define_model` consumes are collected in
a structure; identifier arrays become functions on `Fin` so that every
stock has exactly one industry and sector index. -/

/-- Hierarchy index extracted from the `info` dictionary: counts per level
together with the industry-to-sector and stock-to-industry and
stock-to-sector identifier arrays. -/
structure HierarchyInfo where
  num_sectors : ℕ
  num_industries : ℕ
  num_stocks : ℕ
  sector_industries_id : Fin num_industries → Fin num_sectors
  industries_id : Fin num_stocks → Fin num_industries
  sectors_id : Fin num_stocks → Fin num_sectors

/-- Embedding of `tf.gather(x, ids, axis=0)`: row `j` of the result is row
`ids[j]` of `x`. -/
def tf_gather {α : Type} {n m : ℕ} (x : Fin n → α) (ids : Fin m → Fin n) :
    Fin m → α :=
  fun j => x (ids j)

/-- Prior location of the industry-level phi parameter in `define_model`
(volatile.py line 47): `tf.gather(phi_s, sec2ind_id, axis=0)`. -/
def phi_i_loc {p : ℕ} (info : HierarchyInfo)
    (phi_s : Fin info.num_sectors → Fin p → ℚ) :
    Fin info.num_industries → Fin p → ℚ :=
  tf_gather phi_s info.sector_industries_id

/-- Prior location of the stock-level phi parameter in `define_model`
(volatile.py line 52): `tf.gather(phi_i, ind_id, axis=0)`. -/
def phi_loc {p : ℕ} (info : HierarchyInfo)
    (phi_i : Fin info.num_industries → Fin p → ℚ) :
    Fin info.num_stocks → Fin p → ℚ :=
  tf_gather phi_i info.industries_id

/-- Tags for the distribution layers appended to the list `m` inside
`define_model`, in source order. -/
inductive LayerSpec
  | phi_m | psi_m | phi_s | psi_s | phi_i | psi_i | phi | psi
  | y_market | y_sector | y_industry | y_stock
deriving DecidableEq

/-- The list of valid levels, volatile.py line 34. -/
def available_levels : List String := ["market", "sector", "industry", "stock"]

/-- Error message raised by `define_model` for an unknown level. -/
def levelErrMsg : String :=
  "Selected level is unknown. Please provide one of the available levels."

/-- The list `m` of distribution layers that `define_model` builds for a
given level, mirroring the nested conditionals of volatile.py lines 38-62. -/
def model_layers (level : String) : List LayerSpec :=
  ([LayerSpec.phi_m, LayerSpec.psi_m] ++
    (if level ≠ "market" then
      [LayerSpec.phi_s, LayerSpec.psi_s] ++
        (if level ≠ "sector" then
          [LayerSpec.phi_i, LayerSpec.psi_i] ++
            (if level ≠ "industry" then [LayerSpec.phi, LayerSpec.psi]
             else [])
         else [])
     else [])) ++
  (if level = "market" then [LayerSpec.y_market] else []) ++
  (if level = "sector" then [LayerSpec.y_sector] else []) ++
  (if level = "industry" then [LayerSpec.y_industry] else []) ++
  (if level = "stock" then [LayerSpec.y_stock] else [])

/-- The function `define_model` of volatile.py lines 16-64: an unknown
level raises an exception before any layer of the model is constructed;
a valid level returns the joint model, represented by its layer list. -/
def define_model (level : String) : Except String (List LayerSpec) :=
  if level ∉ available_levels then Except.error levelErrMsg
  else Except.ok (model_layers level)

/-- Embedding of the Python string method `lower`: every character is
lowercased. -/
def py_lower (s : String) : String := String.mk (s.data.map Char.toLower)

/-- The ranking-mode check of volatile.py lines 236-237: an unknown rank
(after lowercasing) raises an exception before any computation. -/
def check_rank (rank : String) : Except String Unit :=
  if py_lower rank ∉ ["rate", "growth"] then
    Except.error "Rank not recognized. Please provide one between rate and growth."
  else Except.ok ()

/-! ### Staged optimizer (source: `train`, volatile.py lines 66-137)

The TensorFlow state is embedded explicitly: a tensor wrapped in
`tf.Variable` is trainable, one wrapped in `tf.constant` is not, and
`tfp.math.minimize` iterates a gradient step that may read the whole state
but can only write the trainable tensors.  The gradient step itself is an
arbitrary parameter of the embedding (its numerics are irrelevant to the
claims about staging).  Tensor entries are embedded as rationals and the
trailing axis of size one of the psi tensors is dropped. -/

/-- A TensorFlow tensor slot: its current value, and whether it is a
`tf.Variable` (trainable) or a `tf.constant` (frozen). -/
structure TFParam (α : Type) where
  value : α
  trainable : Bool

/-- Write `v` into the slot if it is trainable, otherwise leave the slot
untouched: the only write primitive an optimizer step has. -/
def applyTrainable {α : Type} (x : TFParam α) (v : α) : TFParam α :=
  if x.trainable then ⟨v, x.trainable⟩ else x

/-- Freeze a slot, i.e. `phi = tf.constant(phi)` (volatile.py lines 98,
106, 113): the value is kept and the slot stops being trainable. -/
def tf_constant {α : Type} (x : TFParam α) : TFParam α := ⟨x.value, false⟩

/-- The full parameter state threaded through `train`: one slot per tensor
of volatile.py line 137, with the shapes determined by the hierarchy. -/
structure TrainParams (info : HierarchyInfo) (p : ℕ) where
  phi_m : TFParam (Fin 1 → Fin p → ℚ)
  psi_m : TFParam ℚ
  phi_s : TFParam (Fin info.num_sectors → Fin p → ℚ)
  psi_s : TFParam (Fin info.num_sectors → ℚ)
  phi_i : TFParam (Fin info.num_industries → Fin p → ℚ)
  psi_i : TFParam (Fin info.num_industries → ℚ)
  phi : TFParam (Fin info.num_stocks → Fin p → ℚ)
  psi : TFParam (Fin info.num_stocks → ℚ)

/-- One optimizer iteration inside `tfp.math.minimize`: the proposed new
state `upd s` may depend on everything, but only trainable slots receive
their proposed values. -/
def minimize_step {info : HierarchyInfo} {p : ℕ}
    (upd : TrainParams info p → TrainParams info p)
    (s : TrainParams info p) : TrainParams info p :=
  ⟨applyTrainable s.phi_m ((upd s).phi_m.value),
   applyTrainable s.psi_m ((upd s).psi_m.value),
   applyTrainable s.phi_s ((upd s).phi_s.value),
   applyTrainable s.psi_s ((upd s).psi_s.value),
   applyTrainable s.phi_i ((upd s).phi_i.value),
   applyTrainable s.psi_i ((upd s).psi_i.value),
   applyTrainable s.phi ((upd s).phi.value),
   applyTrainable s.psi ((upd s).psi.value)⟩

/-- Embedding of `tfp.math.minimize(loss, optimizer, num_steps)`: the
optimizer iteration applied `num_steps` times. -/
def tfp_minimize {info : HierarchyInfo} {p : ℕ} (num_steps : ℕ)
    (upd : TrainParams info p → TrainParams info p)
    (s : TrainParams info p) : TrainParams info p :=
  (minimize_step upd)^[num_steps] s

/-- Per-stage iteration count of volatile.py line 89:
`num_steps_l = int(np.ceil(num_steps // 4))`, where `//` is the floor
division of Python integers and `np.ceil` acts on the resulting integer. -/
def num_steps_l (num_steps : ℕ) : ℕ :=
  (⌈((num_steps / 4 : ℕ) : ℚ)⌉).toNat

/-- State before the market stage: `phi_m`, `psi_m` are fresh zero
variables (volatile.py line 93); the finer-level tensors do not exist yet
and are embedded as frozen zero slots. -/
def init_params (info : HierarchyInfo) (p : ℕ) : TrainParams info p :=
  ⟨⟨fun _ _ => 0, true⟩, ⟨0, true⟩,
   ⟨fun _ _ => 0, false⟩, ⟨fun _ => 0, false⟩,
   ⟨fun _ _ => 0, false⟩, ⟨fun _ => 0, false⟩,
   ⟨fun _ _ => 0, false⟩, ⟨fun _ => 0, false⟩⟩

/-- Market stage of `train` (volatile.py lines 92-95). -/
def market_stage {info : HierarchyInfo} {p : ℕ} (nl : ℕ)
    (updM : TrainParams info p → TrainParams info p) : TrainParams info p :=
  tfp_minimize nl updM (init_params info p)

/-- Sector stage of `train` (volatile.py lines 96-102): the market
parameters are frozen with `tf.constant` and fresh zero variables are
created for `phi_s`, `psi_s` before minimizing. -/
def sector_stage {info : HierarchyInfo} {p : ℕ} (nl : ℕ)
    (updS : TrainParams info p → TrainParams info p)
    (s : TrainParams info p) : TrainParams info p :=
  tfp_minimize nl updS
    ⟨tf_constant s.phi_m, tf_constant s.psi_m,
     ⟨fun _ _ => 0, true⟩, ⟨fun _ => 0, true⟩,
     s.phi_i, s.psi_i, s.phi, s.psi⟩

/-- Industry stage of `train` (volatile.py lines 104-110): the sector
parameters are frozen and fresh zero variables are created for `phi_i`,
`psi_i` before minimizing. -/
def industry_stage {info : HierarchyInfo} {p : ℕ} (nl : ℕ)
    (updI : TrainParams info p → TrainParams info p)
    (s : TrainParams info p) : TrainParams info p :=
  tfp_minimize nl updI
    ⟨s.phi_m, s.psi_m, tf_constant s.phi_s, tf_constant s.psi_s,
     ⟨fun _ _ => 0, true⟩, ⟨fun _ => 0, true⟩, s.phi, s.psi⟩

/-- Stock stage of `train` (volatile.py lines 111-116): the industry
parameters are frozen and fresh zero variables are created for `phi`,
`psi` before minimizing. -/
def stock_stage {info : HierarchyInfo} {p : ℕ} (nl : ℕ)
    (updSt : TrainParams info p → TrainParams info p)
    (s : TrainParams info p) : TrainParams info p :=
  tfp_minimize nl updSt
    ⟨s.phi_m, s.psi_m, s.phi_s, s.psi_s,
     tf_constant s.phi_i, tf_constant s.psi_i,
     ⟨fun _ _ => 0, true⟩, ⟨fun _ => 0, true⟩⟩

/-- The value tuple returned by `train` at volatile.py line 137, read off
a parameter state. -/
def train_result {info : HierarchyInfo} {p : ℕ} (s : TrainParams info p) :
    (Fin 1 → Fin p → ℚ) × ℚ ×
    (Fin info.num_sectors → Fin p → ℚ) × (Fin info.num_sectors → ℚ) ×
    (Fin info.num_industries → Fin p → ℚ) × (Fin info.num_industries → ℚ) ×
    (Fin info.num_stocks → Fin p → ℚ) × (Fin info.num_stocks → ℚ) :=
  (s.phi_m.value, s.psi_m.value, s.phi_s.value, s.psi_s.value,
   s.phi_i.value, s.psi_i.value, s.phi.value, s.psi.value)

/-- The four stages of `train` run strictly in sequence, each for `nl`
iterations, and the final state yields the returned tuple. -/
def train_with {info : HierarchyInfo} {p : ℕ}
    (updM updS updI updSt : TrainParams info p → TrainParams info p)
    (nl : ℕ) :
    (Fin 1 → Fin p → ℚ) × ℚ ×
    (Fin info.num_sectors → Fin p → ℚ) × (Fin info.num_sectors → ℚ) ×
    (Fin info.num_industries → Fin p → ℚ) × (Fin info.num_industries → ℚ) ×
    (Fin info.num_stocks → Fin p → ℚ) × (Fin info.num_stocks → ℚ) :=
  train_result
    (stock_stage nl updSt
      (industry_stage nl updI
        (sector_stage nl updS
          (market_stage nl updM))))

/-- The function `train` of volatile.py lines 66-137, with the per-stage
gradient steps abstracted as arbitrary update functions: every stage runs
`num_steps_l num_steps` optimizer iterations. -/
def train {info : HierarchyInfo} {p : ℕ}
    (updM updS updI updSt : TrainParams info p → TrainParams info p)
    (num_steps : ℕ) :
    (Fin 1 → Fin p → ℚ) × ℚ ×
    (Fin info.num_sectors → Fin p → ℚ) × (Fin info.num_sectors → ℚ) ×
    (Fin info.num_industries → Fin p → ℚ) × (Fin info.num_industries → ℚ) ×
    (Fin info.num_stocks → Fin p → ℚ) × (Fin info.num_stocks → ℚ) :=
  train_with updM updS updI updSt (num_steps_l num_steps)

/-! ### Concrete instances used to exercise the theorems below -/

/-- Small concrete hierarchy: 2 sectors, 2 industries, 3 stocks, with a
consistent industry-to-sector assignment. -/
def exInfo : HierarchyInfo := ⟨2, 2, 3, ![0, 1], ![0, 1, 1], ![0, 1, 1]⟩

/-- Concrete sector-level phi parameters for `exInfo`. -/
def exPhiS : Fin 2 → Fin 1 → ℚ := ![![10], ![20]]

/-- Concrete industry-level phi parameters for `exInfo`. -/
def exPhiI : Fin 2 → Fin 1 → ℚ := ![![1], ![2]]

/-- A concrete stock index of `exInfo`. -/
def exStock : Fin exInfo.num_stocks := ⟨0, by decide⟩


/-! ### Helper lemmas -/

/-- Helper: the classification cascade of `rate` with the default
thresholds, with the threshold projections reduced. -/
theorem rateOne_default_eq (s : ℚ) :
    rateOne defaultThresholds s =
      if s > 3 then "HIGHLY BELOW TREND"
      else if s > 2 then "BELOW TREND"
      else if s > 0 then "ALONG TREND"
      else if s > -2 then "ABOVE TREND"
      else "HIGHLY ABOVE TREND" := rfl

/-- Helper: writing into a frozen slot leaves it unchanged. -/
theorem applyTrainable_frozen {α : Type} (x : TFParam α) (v : α)
    (h : x.trainable = false) : applyTrainable x v = x := by
  simp [applyTrainable, h]

/-- Helper: one optimizer iteration does not touch a frozen phi_m slot. -/
theorem minimize_step_phi_m {info : HierarchyInfo} {p : ℕ}
    (upd : TrainParams info p → TrainParams info p) (s : TrainParams info p)
    (h : s.phi_m.trainable = false) :
    (minimize_step upd s).phi_m = s.phi_m :=
  applyTrainable_frozen _ _ h

/-- Helper: a whole minimization run does not touch a frozen phi_m slot. -/
theorem tfp_minimize_phi_m {info : HierarchyInfo} {p : ℕ}
    (upd : TrainParams info p → TrainParams info p) :
    ∀ (n : ℕ) (s : TrainParams info p), s.phi_m.trainable = false →
      (tfp_minimize n upd s).phi_m = s.phi_m := by
  intro n
  induction n with
  | zero => intro s _; rfl
  | succ k ih =>
    intro s h
    have hstep := minimize_step_phi_m upd s h
    have hflag : (minimize_step upd s).phi_m.trainable = false := by
      rw [hstep]; exact h
    show ((minimize_step upd)^[k + 1] s).phi_m = s.phi_m
    rw [Function.iterate_succ_apply]
    have hrest := ih (minimize_step upd s) hflag
    rw [show (tfp_minimize k upd (minimize_step upd s)) =
      (minimize_step upd)^[k] (minimize_step upd s) from rfl] at hrest
    rw [hrest, hstep]

/-- Helper: one optimizer iteration does not touch a frozen psi_m slot. -/
theorem minimize_step_psi_m {info : HierarchyInfo} {p : ℕ}
    (upd : TrainParams info p → TrainParams info p) (s : TrainParams info p)
    (h : s.psi_m.trainable = false) :
    (minimize_step upd s).psi_m = s.psi_m :=
  applyTrainable_frozen _ _ h

/-- Helper: a whole minimization run does not touch a frozen psi_m slot. -/
theorem tfp_minimize_psi_m {info : HierarchyInfo} {p : ℕ}
    (upd : TrainParams info p → TrainParams info p) :
    ∀ (n : ℕ) (s : TrainParams info p), s.psi_m.trainable = false →
      (tfp_minimize n upd s).psi_m = s.psi_m := by
  intro n
  induction n with
  | zero => intro s _; rfl
  | succ k ih =>
    intro s h
    have hstep := minimize_step_psi_m upd s h
    have hflag : (minimize_step upd s).psi_m.trainable = false := by
      rw [hstep]; exact h
    show ((minimize_step upd)^[k + 1] s).psi_m = s.psi_m
    rw [Function.iterate_succ_apply]
    have hrest := ih (minimize_step upd s) hflag
    rw [show (tfp_minimize k upd (minimize_step upd s)) =
      (minimize_step upd)^[k] (minimize_step upd s) from rfl] at hrest
    rw [hrest, hstep]

/-- Helper: one optimizer iteration does not touch a frozen phi_s slot. -/
theorem minimize_step_phi_s {info : HierarchyInfo} {p : ℕ}
    (upd : TrainParams info p → TrainParams info p) (s : TrainParams info p)
    (h : s.phi_s.trainable = false) :
    (minimize_step upd s).phi_s = s.phi_s :=
  applyTrainable_frozen _ _ h

/-- Helper: a whole minimization run does not touch a frozen phi_s slot. -/
theorem tfp_minimize_phi_s {info : HierarchyInfo} {p : ℕ}
    (upd : TrainParams info p → TrainParams info p) :
    ∀ (n : ℕ) (s : TrainParams info p), s.phi_s.trainable = false →
      (tfp_minimize n upd s).phi_s = s.phi_s := by
  intro n
  induction n with
  | zero => intro s _; rfl
  | succ k ih =>
    intro s h
    have hstep := minimize_step_phi_s upd s h
    have hflag : (minimize_step upd s).phi_s.trainable = false := by
      rw [hstep]; exact h
    show ((minimize_step upd)^[k + 1] s).phi_s = s.phi_s
    rw [Function.iterate_succ_apply]
    have hrest := ih (minimize_step upd s) hflag
    rw [show (tfp_minimize k upd (minimize_step upd s)) =
      (minimize_step upd)^[k] (minimize_step upd s) from rfl] at hrest
    rw [hrest, hstep]

/-- Helper: one optimizer iteration does not touch a frozen psi_s slot. -/
theorem minimize_step_psi_s {info : HierarchyInfo} {p : ℕ}
    (upd : TrainParams info p → TrainParams info p) (s : TrainParams info p)
    (h : s.psi_s.trainable = false) :
    (minimize_step upd s).psi_s = s.psi_s :=
  applyTrainable_frozen _ _ h

/-- Helper: a whole minimization run does not touch a frozen psi_s slot. -/
theorem tfp_minimize_psi_s {info : HierarchyInfo} {p : ℕ}
    (upd : TrainParams info p → TrainParams info p) :
    ∀ (n : ℕ) (s : TrainParams info p), s.psi_s.trainable = false →
      (tfp_minimize n upd s).psi_s = s.psi_s := by
  intro n
  induction n with
  | zero => intro s _; rfl
  | succ k ih =>
    intro s h
    have hstep := minimize_step_psi_s upd s h
    have hflag : (minimize_step upd s).psi_s.trainable = false := by
      rw [hstep]; exact h
    show ((minimize_step upd)^[k + 1] s).psi_s = s.psi_s
    rw [Function.iterate_succ_apply]
    have hrest := ih (minimize_step upd s) hflag
    rw [show (tfp_minimize k upd (minimize_step upd s)) =
      (minimize_step upd)^[k] (minimize_step upd s) from rfl] at hrest
    rw [hrest, hstep]

/-- Helper: one optimizer iteration does not touch a frozen phi_i slot. -/
theorem minimize_step_phi_i {info : HierarchyInfo} {p : ℕ}
    (upd : TrainParams info p → TrainParams info p) (s : TrainParams info p)
    (h : s.phi_i.trainable = false) :
    (minimize_step upd s).phi_i = s.phi_i :=
  applyTrainable_frozen _ _ h

/-- Helper: a whole minimization run does not touch a frozen phi_i slot. -/
theorem tfp_minimize_phi_i {info : HierarchyInfo} {p : ℕ}
    (upd : TrainParams info p → TrainParams info p) :
    ∀ (n : ℕ) (s : TrainParams info p), s.phi_i.trainable = false →
      (tfp_minimize n upd s).phi_i = s.phi_i := by
  intro n
  induction n with
  | zero => intro s _; rfl
  | succ k ih =>
    intro s h
    have hstep := minimize_step_phi_i upd s h
    have hflag : (minimize_step upd s).phi_i.trainable = false := by
      rw [hstep]; exact h
    show ((minimize_step upd)^[k + 1] s).phi_i = s.phi_i
    rw [Function.iterate_succ_apply]
    have hrest := ih (minimize_step upd s) hflag
    rw [show (tfp_minimize k upd (minimize_step upd s)) =
      (minimize_step upd)^[k] (minimize_step upd s) from rfl] at hrest
    rw [hrest, hstep]

/-- Helper: one optimizer iteration does not touch a frozen psi_i slot. -/
theorem minimize_step_psi_i {info : HierarchyInfo} {p : ℕ}
    (upd : TrainParams info p → TrainParams info p) (s : TrainParams info p)
    (h : s.psi_i.trainable = false) :
    (minimize_step upd s).psi_i = s.psi_i :=
  applyTrainable_frozen _ _ h

/-- Helper: a whole minimization run does not touch a frozen psi_i slot. -/
theorem tfp_minimize_psi_i {info : HierarchyInfo} {p : ℕ}
    (upd : TrainParams info p → TrainParams info p) :
    ∀ (n : ℕ) (s : TrainParams info p), s.psi_i.trainable = false →
      (tfp_minimize n upd s).psi_i = s.psi_i := by
  intro n
  induction n with
  | zero => intro s _; rfl
  | succ k ih =>
    intro s h
    have hstep := minimize_step_psi_i upd s h
    have hflag : (minimize_step upd s).psi_i.trainable = false := by
      rw [hstep]; exact h
    show ((minimize_step upd)^[k + 1] s).psi_i = s.psi_i
    rw [Function.iterate_succ_apply]
    have hrest := ih (minimize_step upd s) hflag
    rw [show (tfp_minimize k upd (minimize_step upd s)) =
      (minimize_step upd)^[k] (minimize_step upd s) from rfl] at hrest
    rw [hrest, hstep]

/-- Helper: the sector stage freezes the market phi parameters at their
incoming values. -/
theorem sector_stage_phi_m {info : HierarchyInfo} {p : ℕ} (nl : ℕ)
    (updS : TrainParams info p → TrainParams info p) (s : TrainParams info p) :
    (sector_stage nl updS s).phi_m = tf_constant s.phi_m :=
  tfp_minimize_phi_m updS nl _ rfl

/-- Helper: the sector stage freezes the market psi parameter at its
incoming value. -/
theorem sector_stage_psi_m {info : HierarchyInfo} {p : ℕ} (nl : ℕ)
    (updS : TrainParams info p → TrainParams info p) (s : TrainParams info p) :
    (sector_stage nl updS s).psi_m = tf_constant s.psi_m :=
  tfp_minimize_psi_m updS nl _ rfl

/-- Helper: the industry stage does not touch already frozen market phi
parameters. -/
theorem industry_stage_phi_m {info : HierarchyInfo} {p : ℕ} (nl : ℕ)
    (updI : TrainParams info p → TrainParams info p) (s : TrainParams info p)
    (h : s.phi_m.trainable = false) :
    (industry_stage nl updI s).phi_m = s.phi_m :=
  tfp_minimize_phi_m updI nl _ h

/-- Helper: the industry stage does not touch an already frozen market psi
parameter. -/
theorem industry_stage_psi_m {info : HierarchyInfo} {p : ℕ} (nl : ℕ)
    (updI : TrainParams info p → TrainParams info p) (s : TrainParams info p)
    (h : s.psi_m.trainable = false) :
    (industry_stage nl updI s).psi_m = s.psi_m :=
  tfp_minimize_psi_m updI nl _ h

/-- Helper: the industry stage freezes the sector phi parameters at their
incoming values. -/
theorem industry_stage_phi_s {info : HierarchyInfo} {p : ℕ} (nl : ℕ)
    (updI : TrainParams info p → TrainParams info p) (s : TrainParams info p) :
    (industry_stage nl updI s).phi_s = tf_constant s.phi_s :=
  tfp_minimize_phi_s updI nl _ rfl

/-- Helper: the industry stage freezes the sector psi parameters at their
incoming values. -/
theorem industry_stage_psi_s {info : HierarchyInfo} {p : ℕ} (nl : ℕ)
    (updI : TrainParams info p → TrainParams info p) (s : TrainParams info p) :
    (industry_stage nl updI s).psi_s = tf_constant s.psi_s :=
  tfp_minimize_psi_s updI nl _ rfl

/-- Helper: the stock stage does not touch already frozen market phi
parameters. -/
theorem stock_stage_phi_m {info : HierarchyInfo} {p : ℕ} (nl : ℕ)
    (updSt : TrainParams info p → TrainParams info p) (s : TrainParams info p)
    (h : s.phi_m.trainable = false) :
    (stock_stage nl updSt s).phi_m = s.phi_m :=
  tfp_minimize_phi_m updSt nl _ h

/-- Helper: the stock stage does not touch an already frozen market psi
parameter. -/
theorem stock_stage_psi_m {info : HierarchyInfo} {p : ℕ} (nl : ℕ)
    (updSt : TrainParams info p → TrainParams info p) (s : TrainParams info p)
    (h : s.psi_m.trainable = false) :
    (stock_stage nl updSt s).psi_m = s.psi_m :=
  tfp_minimize_psi_m updSt nl _ h

/-- Helper: the stock stage does not touch already frozen sector phi
parameters. -/
theorem stock_stage_phi_s {info : HierarchyInfo} {p : ℕ} (nl : ℕ)
    (updSt : TrainParams info p → TrainParams info p) (s : TrainParams info p)
    (h : s.phi_s.trainable = false) :
    (stock_stage nl updSt s).phi_s = s.phi_s :=
  tfp_minimize_phi_s updSt nl _ h

/-- Helper: the stock stage does not touch already frozen sector psi
parameters. -/
theorem stock_stage_psi_s {info : HierarchyInfo} {p : ℕ} (nl : ℕ)
    (updSt : TrainParams info p → TrainParams info p) (s : TrainParams info p)
    (h : s.psi_s.trainable = false) :
    (stock_stage nl updSt s).psi_s = s.psi_s :=
  tfp_minimize_psi_s updSt nl _ h

/-- Helper: the stock stage freezes the industry phi parameters at their
incoming values. -/
theorem stock_stage_phi_i {info : HierarchyInfo} {p : ℕ} (nl : ℕ)
    (updSt : TrainParams info p → TrainParams info p) (s : TrainParams info p) :
    (stock_stage nl updSt s).phi_i = tf_constant s.phi_i :=
  tfp_minimize_phi_i updSt nl _ rfl

/-- Helper: the stock stage freezes the industry psi parameters at their
incoming values. -/
theorem stock_stage_psi_i {info : HierarchyInfo} {p : ℕ} (nl : ℕ)
    (updSt : TrainParams info p → TrainParams info p) (s : TrainParams info p) :
    (stock_stage nl updSt s).psi_i = tf_constant s.psi_i :=
  tfp_minimize_psi_i updSt nl _ rfl

/-- Helper: the per-stage iteration count of `train` is the floor of
`num_steps / 4`, because the Python floor division happens before the
ceiling is taken. -/
theorem num_steps_l_eq_floor (n : ℕ) : num_steps_l n = n / 4 := by
  unfold num_steps_l
  rw [Int.ceil_natCast]
  exact Int.toNat_natCast _

/-! ### Claim theorems -/

/-- C1: in `train`, parameters frozen after a stage are never mutated
during any later stage: for arbitrary optimizer update functions, the
market parameters are identical before and after the sector, industry and
stock stages, the sector parameters before and after the industry and
stock stages, and the industry parameters before and after the stock
stage; the returned tuple carries each level at the value it had at the
end of its own stage. -/
theorem train_frozen_parameters (info : HierarchyInfo) (p : ℕ)
    (updM updS updI updSt : TrainParams info p → TrainParams info p)
    (n : ℕ) :
    let nl := num_steps_l n
    let s1 := market_stage nl updM
    let s2 := sector_stage nl updS s1
    let s3 := industry_stage nl updI s2
    let s4 := stock_stage nl updSt s3
    (s2.phi_m.value = s1.phi_m.value ∧ s2.psi_m.value = s1.psi_m.value) ∧
    (s3.phi_m.value = s1.phi_m.value ∧ s3.psi_m.value = s1.psi_m.value) ∧
    (s4.phi_m.value = s1.phi_m.value ∧ s4.psi_m.value = s1.psi_m.value) ∧
    (s3.phi_s.value = s2.phi_s.value ∧ s3.psi_s.value = s2.psi_s.value) ∧
    (s4.phi_s.value = s2.phi_s.value ∧ s4.psi_s.value = s2.psi_s.value) ∧
    (s4.phi_i.value = s3.phi_i.value ∧ s4.psi_i.value = s3.psi_i.value) ∧
    train updM updS updI updSt n =
      (s1.phi_m.value, s1.psi_m.value, s2.phi_s.value, s2.psi_s.value,
       s3.phi_i.value, s3.psi_i.value, s4.phi.value, s4.psi.value) := by
  intro nl s1 s2 s3 s4
  have e2m : s2.phi_m = tf_constant s1.phi_m := sector_stage_phi_m nl updS s1
  have e2pm : s2.psi_m = tf_constant s1.psi_m := sector_stage_psi_m nl updS s1
  have f2m : s2.phi_m.trainable = false := by rw [e2m]; rfl
  have f2pm : s2.psi_m.trainable = false := by rw [e2pm]; rfl
  have e3m : s3.phi_m = s2.phi_m := industry_stage_phi_m nl updI s2 f2m
  have e3pm : s3.psi_m = s2.psi_m := industry_stage_psi_m nl updI s2 f2pm
  have e3s : s3.phi_s = tf_constant s2.phi_s := industry_stage_phi_s nl updI s2
  have e3ps : s3.psi_s = tf_constant s2.psi_s := industry_stage_psi_s nl updI s2
  have f3m : s3.phi_m.trainable = false := by rw [e3m]; exact f2m
  have f3pm : s3.psi_m.trainable = false := by rw [e3pm]; exact f2pm
  have f3s : s3.phi_s.trainable = false := by rw [e3s]; rfl
  have f3ps : s3.psi_s.trainable = false := by rw [e3ps]; rfl
  have e4m : s4.phi_m = s3.phi_m := stock_stage_phi_m nl updSt s3 f3m
  have e4pm : s4.psi_m = s3.psi_m := stock_stage_psi_m nl updSt s3 f3pm
  have e4s : s4.phi_s = s3.phi_s := stock_stage_phi_s nl updSt s3 f3s
  have e4ps : s4.psi_s = s3.psi_s := stock_stage_psi_s nl updSt s3 f3ps
  have e4i : s4.phi_i = tf_constant s3.phi_i := stock_stage_phi_i nl updSt s3
  have e4pi : s4.psi_i = tf_constant s3.psi_i := stock_stage_psi_i nl updSt s3
  have v2m : s2.phi_m.value = s1.phi_m.value := by rw [e2m]; rfl
  have v2pm : s2.psi_m.value = s1.psi_m.value := by rw [e2pm]; rfl
  have v3m : s3.phi_m.value = s1.phi_m.value := by rw [e3m]; exact v2m
  have v3pm : s3.psi_m.value = s1.psi_m.value := by rw [e3pm]; exact v2pm
  have v4m : s4.phi_m.value = s1.phi_m.value := by rw [e4m]; exact v3m
  have v4pm : s4.psi_m.value = s1.psi_m.value := by rw [e4pm]; exact v3pm
  have v3s : s3.phi_s.value = s2.phi_s.value := by rw [e3s]; rfl
  have v3ps : s3.psi_s.value = s2.psi_s.value := by rw [e3ps]; rfl
  have v4s : s4.phi_s.value = s2.phi_s.value := by rw [e4s]; exact v3s
  have v4ps : s4.psi_s.value = s2.psi_s.value := by rw [e4ps]; exact v3ps
  have v4i : s4.phi_i.value = s3.phi_i.value := by rw [e4i]; rfl
  have v4pi : s4.psi_i.value = s3.psi_i.value := by rw [e4pi]; rfl
  refine ⟨⟨v2m, v2pm⟩, ⟨v3m, v3pm⟩, ⟨v4m, v4pm⟩, ⟨v3s, v3ps⟩,
    ⟨v4s, v4ps⟩, ⟨v4i, v4pi⟩, ?_⟩
  show train_result s4 = _
  unfold train_result
  rw [v4m, v4pm, v4s, v4ps, v4i, v4pi]

/-- C2 counterexample: at `num_steps = 5` the per-stage iteration count of
`train` is `5 // 4 = 1`, not `ceil(5 / 4) = 2` as the claim states, so the
claim fails for `num_steps` that are not multiples of 4. -/
theorem num_steps_l_not_ceil :
    num_steps_l 5 = 1 ∧ ((⌈(5 : ℚ) / 4⌉ : ℤ) = 2) ∧ (1 : ℕ) ≠ 2 := by
  refine ⟨by decide, ?_, by decide⟩
  rw [Int.ceil_eq_iff]
  norm_num

/-- C2 amended: the iteration budget is divided into 4 equal stages and
each of the four stage optimizations of `train` runs exactly
`num_steps // 4 = floor(num_steps / 4)` iterations (the code computes
`int(np.ceil(num_steps // 4))`, where the floor division happens first);
for the default `num_steps = 10000` this is 2500 per stage, which agrees
with `ceil(num_steps / 4)` only because 4 divides 10000. -/
theorem train_stage_iterations (info : HierarchyInfo) (p : ℕ)
    (updM updS updI updSt : TrainParams info p → TrainParams info p)
    (n : ℕ) :
    num_steps_l n = n / 4 ∧
    train updM updS updI updSt n = train_with updM updS updI updSt (n / 4) ∧
    num_steps_l 10000 = 2500 := by
  refine ⟨num_steps_l_eq_floor n, ?_, by decide⟩
  show train_with updM updS updI updSt (num_steps_l n) = _
  rw [num_steps_l_eq_floor n]

/-- C3 counterexample: with one stock, prediction 2 at the horizon, last
observation 1 and standard deviation 1, the score `(2 - 1) / 1` is
positive while the predicted price `exp 2` is not below the current price
`exp 1` - it is above it - so a positive score does not imply that the
predicted price is below the current price. -/
theorem scores_sign_counterexample :
    0 < @scores 1 0 5 (fun _ _ => 2) (fun _ _ => 1) (fun _ => 1) 0 ∧
    ¬ Real.exp 2 < Real.exp 1 := by
  constructor
  · show 0 < ((2 : ℝ) - 1) / 1
    norm_num
  · rw [not_lt]
    exact Real.exp_le_exp.mpr (by norm_num)

/-- C3 amended: the score equals
`(logp_pred[i, horizon] - logp[i, last]) / std_logp_pred[i]`, and for a
positive standard deviation the score is positive exactly when the
predicted price is above the current price (the current price is below
trend), the opposite of the sign convention stated in the claim. -/
theorem scores_formula_and_sign (n t horizon : ℕ)
    (logp_pred : Fin n → Fin (horizon + 1) → ℝ)
    (logp : Fin n → Fin (t + 1) → ℝ)
    (std_logp_pred : Fin n → ℝ) (i : Fin n) :
    scores logp_pred logp std_logp_pred i =
      (logp_pred i (Fin.last horizon) - logp i (Fin.last t)) /
        std_logp_pred i ∧
    (0 < std_logp_pred i →
      (0 < scores logp_pred logp std_logp_pred i ↔
        Real.exp (logp i (Fin.last t)) <
          Real.exp (logp_pred i (Fin.last horizon)))) := by
  constructor
  · rfl
  · intro hstd
    unfold scores
    rw [lt_div_iff₀ hstd, zero_mul, sub_pos, Real.exp_lt_exp]

/-- Witness for C3: the amended theorem applied at the concrete input of
the counterexample, with the positivity hypothesis discharged. -/
theorem scores_formula_and_sign_witness :
    @scores 1 0 5 (fun _ _ => 2) (fun _ _ => 1) (fun _ => 1) 0 =
      ((2 : ℝ) - 1) / 1 ∧
    (0 < @scores 1 0 5 (fun _ _ => 2) (fun _ _ => 1) (fun _ => 1) 0 ↔
      Real.exp 1 < Real.exp 2) :=
  ⟨(scores_formula_and_sign 1 0 5 (fun _ _ => 2) (fun _ _ => 1)
      (fun _ => 1) 0).1,
   (scores_formula_and_sign 1 0 5 (fun _ _ => 2) (fun _ _ => 1)
      (fun _ => 1) 0).2 (by norm_num)⟩

/-- C4: with the default thresholds, `rate` is total - every score gets
one of the five labels - and classifies by strict greater-than comparisons
in descending threshold order, a score equal to a threshold falling into
the next lower bin; in particular `rate [3.5] = [HIGHLY BELOW TREND]`,
`rate [2.5] = [BELOW TREND]`, `rate [0] = [ABOVE TREND]` and
`rate [-2.5] = [HIGHLY ABOVE TREND]`. -/
theorem rate_default_bins :
    (∀ s : ℚ, rateOne defaultThresholds s ∈ rateLabels) ∧
    (∀ s : ℚ,
      (rateOne defaultThresholds s = "HIGHLY BELOW TREND" ↔ 3 < s) ∧
      (rateOne defaultThresholds s = "BELOW TREND" ↔ 2 < s ∧ s ≤ 3) ∧
      (rateOne defaultThresholds s = "ALONG TREND" ↔ 0 < s ∧ s ≤ 2) ∧
      (rateOne defaultThresholds s = "ABOVE TREND" ↔ -2 < s ∧ s ≤ 0) ∧
      (rateOne defaultThresholds s = "HIGHLY ABOVE TREND" ↔ s ≤ -2)) ∧
    rate [7 / 2] none = ["HIGHLY BELOW TREND"] ∧
    rate [5 / 2] none = ["BELOW TREND"] ∧
    rate [0] none = ["ABOVE TREND"] ∧
    rate [-5 / 2] none = ["HIGHLY ABOVE TREND"] := by
  refine ⟨?_, ?_, ?_, ?_, ?_, ?_⟩
  · intro s
    rw [rateOne_default_eq]
    unfold rateLabels
    split_ifs <;> simp
  · intro s
    rw [rateOne_default_eq]
    split_ifs with h1 h2 h3 h4 <;>
      refine ⟨?_, ?_, ?_, ?_, ?_⟩ <;> simp <;>
        first
          | linarith
          | (intro _; linarith)
          | (constructor <;> linarith)
  · norm_num [rate, rateOne, defaultThresholds]
  · norm_num [rate, rateOne, defaultThresholds]
  · norm_num [rate, rateOne, defaultThresholds]
  · norm_num [rate, rateOne, defaultThresholds]

/-- C5: `estimate_logprice_statistics` returns exactly the matrix product
`phi * tt` and `softplus(psi) = log(1 + exp psi)` broadcast across time,
and `estimate_price_statistics` returns exactly the log-normal moment
formulas `exp(mu + sigma^2 / 2)` and
`sqrt(exp(2 mu + sigma^2) (exp(sigma^2) - 1))`, for all compatible sizes
and with no assumption about the hierarchy level. -/
theorem estimate_statistics_formulas (n q T : ℕ) (phi : Fin n → Fin q → ℝ)
    (psi : Fin n → ℝ) (tt : Fin q → Fin T → ℝ)
    (mu : Fin n → Fin T → ℝ) (sigma : Fin n → ℝ) :
    (estimate_logprice_statistics phi psi tt).1 = mean_logp_spec phi tt ∧
    (estimate_logprice_statistics phi psi tt).2 = std_logp_spec psi ∧
    (estimate_price_statistics mu sigma).1 = mean_price_spec mu sigma ∧
    (estimate_price_statistics mu sigma).2 = std_price_spec mu sigma := by
  refine ⟨?_, rfl, rfl, rfl⟩
  funext i j
  show np_dot phi tt i j = (Matrix.of phi * Matrix.of tt) i j
  rw [Matrix.mul_apply]
  rfl

/-- C6: in the stock-level model of `define_model`, the prior location of
the stock phi row `j` is the gather of the industry parameters at
`industries_id[j]`, and under the hierarchy-consistency invariant
`sector_industries_id[industries_id[j]] = sectors_id[j]` the effective
industry-level prior mean of stock `j` is the sector parameter row of its
recorded sector; gathers preserve the finer-level entity ordering. -/
theorem define_model_gather_propagation (info : HierarchyInfo) (p : ℕ)
    (phi_s : Fin info.num_sectors → Fin p → ℚ)
    (phi_i : Fin info.num_industries → Fin p → ℚ)
    (j : Fin info.num_stocks) :
    phi_loc info phi_i j = phi_i (info.industries_id j) ∧
    (info.sector_industries_id (info.industries_id j) = info.sectors_id j →
      phi_i_loc info phi_s (info.industries_id j) =
        phi_s (info.sectors_id j)) := by
  constructor
  · rfl
  · intro h
    show phi_s (info.sector_industries_id (info.industries_id j)) = _
    rw [h]

/-- Witness for C6: the gather propagation applied to the concrete
hierarchy `exInfo`, whose industry-to-sector assignment satisfies the
consistency invariant. -/
theorem define_model_gather_propagation_witness :
    phi_loc exInfo exPhiI exStock = exPhiI (exInfo.industries_id exStock) ∧
    phi_i_loc exInfo exPhiS (exInfo.industries_id exStock) =
      exPhiS (exInfo.sectors_id exStock) :=
  ⟨(define_model_gather_propagation exInfo 1 exPhiS exPhiI exStock).1,
   (define_model_gather_propagation exInfo 1 exPhiS exPhiI exStock).2
     (by decide)⟩

/-- C7 counterexample: the forecast basis built by the code contains the
offset-zero column - at `t = 5`, `horizon = 5`, row 1, column 0 its entry
is `(5 / 5) ^ 1 = 1` - whereas a basis over the future offsets
`t + 1 .. t + horizon` would start at `(6 / 5) ^ 1 = 6 / 5`, so `tt_pred`
is not the basis the claim describes. -/
theorem tt_pred_first_column_counterexample :
    tt_pred 2 5 5 1 0 = 1 ∧ tt_pred_claimed 2 5 5 1 0 = 6 / 5 ∧
    (1 : ℚ) ≠ 6 / 5 := by
  refine ⟨?_, ?_, by norm_num⟩
  · unfold tt_pred
    norm_num
  · unfold tt_pred_claimed
    norm_num

/-- C7 amended: for positive `t`, the historical basis row `k` holds
`((j + 1) / t) ^ k` over the `t` observed steps, and the forecast basis
`tt_pred` has `horizon + 1` columns whose row `k` holds `((t + h) / t) ^ k`
for the offsets `h = 0 .. horizon`, i.e. it starts at the current time `t`
rather than at `t + 1`. -/
theorem time_basis_entries (order t horizon : ℕ) (ht : 0 < t) :
    (∀ (k : Fin (order + 1)) (j : Fin t),
      tt_hist order t k j = (((j : ℚ) + 1) / (t : ℚ)) ^ (k : ℕ)) ∧
    (∀ (k : Fin (order + 1)) (h : Fin (horizon + 1)),
      tt_pred order t horizon k h =
        (((t : ℚ) + (h : ℚ)) / (t : ℚ)) ^ (k : ℕ)) := by
  have htq : ((t : ℚ)) ≠ 0 := by positivity
  constructor
  · intro k j
    unfold tt_hist np_linspace
    congr 1
    by_cases h1 : t = 1
    · subst h1
      have hj : (j : ℚ) = 0 := by
        have := Fin.eq_zero j
        subst this
        simp
      simp [hj]
    · have h2 : 2 ≤ t := by omega
      have htq1 : ((t : ℚ)) - 1 ≠ 0 := by
        have : (2 : ℚ) ≤ (t : ℚ) := by exact_mod_cast h2
        intro hc
        have : (t : ℚ) = 1 := by linarith
        linarith
      simp only [if_neg h1]
      field_simp
      ring
  · intro k h
    unfold tt_pred
    congr 1
    field_simp

/-- Witness for C7: the amended basis formulas evaluated at `t = 5`,
`order = 2`, `horizon = 3`, row 1, column 2. -/
theorem time_basis_entries_witness :
    tt_hist 2 5 1 2 =
      ((((2 : Fin 5) : ℚ) + 1) / ((5 : ℕ) : ℚ)) ^ (((1 : Fin 3)) : ℕ) ∧
    tt_pred 2 5 3 1 2 =
      ((((5 : ℕ) : ℚ) + ((2 : Fin 4) : ℚ)) / ((5 : ℕ) : ℚ)) ^
        (((1 : Fin 3)) : ℕ) :=
  ⟨(time_basis_entries 2 5 3 (by norm_num)).1 1 2,
   (time_basis_entries 2 5 3 (by norm_num)).2 1 2⟩

/-- C8: `define_model` fails with the configuration error - and returns no
model layers - exactly when the level is not one of market, sector,
industry, stock, and succeeds on every valid level; likewise `check_rank`
accepts a ranking mode exactly when it lowercases to `rate` or `growth`,
rejecting anything else before any computation. -/
theorem define_model_level_check (level : String) :
    (level ∉ available_levels →
      define_model level = Except.error levelErrMsg) ∧
    (level ∈ available_levels →
      define_model level = Except.ok (model_layers level)) ∧
    (∀ rank : String, check_rank rank = Except.ok () ↔
      py_lower rank ∈ ["rate", "growth"]) := by
  refine ⟨?_, ?_, ?_⟩
  · intro h
    unfold define_model
    simp [h]
  · intro h
    unfold define_model
    simp [h]
  · intro rank
    unfold check_rank
    by_cases h : py_lower rank ∈ ["rate", "growth"] <;> simp [h]

/-- Witness for C8: the level check applied to the invalid level `foo` and
the valid level `market`. -/
theorem define_model_level_check_witness :
    define_model "foo" = Except.error levelErrMsg ∧
    define_model "market" = Except.ok (model_layers "market") :=
  ⟨(define_model_level_check "foo").1 (by decide),
   (define_model_level_check "market").2.1 (by decide)⟩

/-- C9: the standard deviation produced by
`estimate_logprice_statistics` is never zero (softplus is positive), and
feeding its output into `estimate_price_statistics` yields a mean price at
least `exp(mean_logp)` elementwise - the Jensen inequality direction. -/
theorem price_mean_jensen (n q T : ℕ) (phi : Fin n → Fin q → ℝ)
    (psi : Fin n → ℝ) (tt : Fin q → Fin T → ℝ) (i : Fin n) (j : Fin T) :
    (estimate_logprice_statistics phi psi tt).2 i ≠ 0 ∧
    Real.exp ((estimate_logprice_statistics phi psi tt).1 i j) ≤
      (estimate_price_statistics (estimate_logprice_statistics phi psi tt).1
        (estimate_logprice_statistics phi psi tt).2).1 i j := by
  constructor
  · show softplus (psi i) ≠ 0
    have : 0 < softplus (psi i) := by
      unfold softplus
      have := Real.exp_pos (psi i)
      exact Real.log_pos (by linarith)
    exact ne_of_gt this
  · show Real.exp (np_dot phi tt i j) ≤
      Real.exp (np_dot phi tt i j + softplus (psi i) ^ 2 / 2)
    apply Real.exp_le_exp.mpr
    have : (0 : ℝ) ≤ softplus (psi i) ^ 2 / 2 := by positivity
    linarith

/-- C10: with the default thresholds, `rate` never consults the HIGHLY
ABOVE TREND threshold: replacing it by any value leaves the output of
`rate` unchanged on every input list, and a score is labelled HIGHLY ABOVE
TREND exactly when it is at most the ABOVE TREND threshold `-2`. -/
theorem rate_ignores_last_threshold :
    ∀ (ss : List ℚ) (v : ℚ),
      rate ss (some ⟨3, 2, 0, -2, v⟩) = rate ss none ∧
      ∀ s : ℚ,
        (rateOne defaultThresholds s = "HIGHLY ABOVE TREND" ↔ s ≤ -2) := by
  intro ss v
  constructor
  · rfl
  · intro s
    rw [rateOne_default_eq]
    split_ifs with h1 h2 h3 h4 <;> simp <;> linarith

end Volatile
